import Mathlib

/-!
Verification of the input-handling utilities of the vendored design-system
bundle (`index-Dj5HeQWT.js`): the `useCallbackOnEnter` Enter-Submit gate,
the `useChainEventHandlers` event chain, the `useCallbackOnceUntilReset`
helper, and the form-submit callbacks of the `Input` and `TextArea`
components.  Each definition is a shallow embedding of the corresponding
JavaScript function; handlers are modelled as pure transformers of the
event value and side effects (callback invocations, `requestSubmit` calls)
are made explicit in the return values.
-/

/-- A DOM event as observed by the handlers under study: the `key` field,
the four modifier-key flags and the `defaultPrevented` flag. -/
structure DomEvent where
  key : String
  metaKey : Bool
  ctrlKey : Bool
  shiftKey : Bool
  altKey : Bool
  defaultPrevented : Bool
  deriving DecidableEq, Repr

/-- Embedding of `event.preventDefault()`: sets the event's `defaultPrevented` flag. -/
def DomEvent.preventDefault (e : DomEvent) : DomEvent :=
  { e with defaultPrevented := true }

/-!
## Event Chain — `useChainEventHandlers`

```js
return useCallback(event => {
  for (const handler of handlers) {
    if (stopOnDefaultPrevented && event.defaultPrevented) return;
    handler === null || handler === void 0 || handler(event);
  }
}, [handlers, stopOnDefaultPrevented]);
```

A handler is `Option (DomEvent → DomEvent)`: `none` is an absent
(`undefined`/`null`) entry, `some f` a present handler whose effect on the
event is `f`.  `chainRun` returns the event after the chain together with
one `Bool` per handler position recording whether that position's handler
call was performed (`false` for an absent entry and for every position cut
off by the short-circuit `return`).
-/

/-- The function produced by `useChainEventHandlers`, applied to an event.
The `defaultPrevented` check is performed at the top of every loop
iteration, before each handler (including the first). -/
def chainRun (stopOnDefaultPrevented : Bool) :
    List (Option (DomEvent → DomEvent)) → DomEvent → DomEvent × List Bool
  | [], e => (e, [])
  | h :: hs, e =>
    if stopOnDefaultPrevented && e.defaultPrevented then
      (e, List.replicate (h :: hs).length false)
    else
      match h with
      | none =>
        let r := chainRun stopOnDefaultPrevented hs e
        (r.1, false :: r.2)
      | some f =>
        let r := chainRun stopOnDefaultPrevented hs (f e)
        (r.1, true :: r.2)

/-- A concrete event whose `defaultPrevented` flag is already set when the
chained function is called. -/
def prevEv : DomEvent :=
  { key := "a", metaKey := false, ctrlKey := false, shiftKey := false,
    altKey := false, defaultPrevented := true }

/-- A concrete event with every flag clear. -/
def clearEv : DomEvent :=
  { key := "a", metaKey := false, ctrlKey := false, shiftKey := false,
    altKey := false, defaultPrevented := false }

/-- C1 (counterexample): with `stopOnDefaultPrevented = true`, a present
first handler and an event whose `defaultPrevented` flag is already set at
call time, the first handler is NOT invoked — contradicting the claim that
the check is skipped before the first handler. -/
theorem chain_first_handler_not_exempt_cex :
    ¬ ((chainRun true [some (fun ev => ev)] prevEv).2 = [true]) := by
  decide

/-- C1 (amended): the default-prevented check applies before every handler,
the first included: with `stopOnDefaultPrevented = true` and an event whose
`defaultPrevented` flag is set at call time, no handler in the list is
invoked and the event is returned unchanged. -/
theorem chain_stop_check_before_every_handler
    (hs : List (Option (DomEvent → DomEvent))) (e : DomEvent)
    (hp : e.defaultPrevented = true) :
    chainRun true hs e = (e, List.replicate hs.length false) := by
  cases hs with
  | nil => simp [chainRun]
  | cons h t => simp [chainRun, hp]

/-- C1 (witness): the amended statement evaluated at a present single
handler and an already-prevented event. -/
theorem chain_stop_check_before_every_handler_witness :
    chainRun true [some (fun ev => ev)] prevEv =
      (prevEv, List.replicate 1 false) :=
  chain_stop_check_before_every_handler [some (fun ev => ev)] prevEv (by decide)

/-- A handler that marks the event as default-prevented (calls
`preventDefault`). -/
def preventingHandler : DomEvent → DomEvent := DomEvent.preventDefault

/-- A handler that leaves the event untouched. -/
def idHandler : DomEvent → DomEvent := fun e => e

/-- C6: for `handlers = [h1, h2]` both present and an event whose
`defaultPrevented` flag is initially clear: with
`stopOnDefaultPrevented = true`, if `h1` sets the flag then `h2` is not
invoked; with `stopOnDefaultPrevented = false`, `h2` is invoked whatever
`h1` does to the event. -/
theorem chain_stop_on_prevent_two_handlers
    (f g : DomEvent → DomEvent) (e : DomEvent)
    (he : e.defaultPrevented = false) :
    ((f e).defaultPrevented = true →
      (chainRun true [some f, some g] e).2 = [true, false]) ∧
    (chainRun false [some f, some g] e).2 = [true, true] := by
  constructor
  · intro hf
    simp [chainRun, he, hf]
  · simp [chainRun]

/-- C6 (witness): evaluated with `h1` the preventing handler, `h2` the
identity handler and a clear event. -/
theorem chain_stop_on_prevent_two_handlers_witness :
    ((preventingHandler clearEv).defaultPrevented = true →
      (chainRun true [some preventingHandler, some idHandler] clearEv).2 =
        [true, false]) ∧
    (chainRun false [some preventingHandler, some idHandler] clearEv).2 =
      [true, true] :=
  chain_stop_on_prevent_two_handlers preventingHandler idHandler clearEv
    (by decide)

/-- C7: an absent entry at the head of the handler list is skipped — the
chain proceeds to the remaining handlers with the event unchanged —
whenever the short-circuit check does not fire; in particular, with an
absent `h1` and a present `h2` and an event whose `defaultPrevented` flag
is clear, `h2` is invoked on the original event, for either value of
`stopOnDefaultPrevented`.  (`chainRun` is a total function: no input makes
it raise an error.) -/
theorem chain_skips_absent_handlers
    (stop : Bool) (hs : List (Option (DomEvent → DomEvent)))
    (g : DomEvent → DomEvent) (e : DomEvent)
    (he : e.defaultPrevented = false) :
    chainRun stop (none :: hs) e =
      ((chainRun stop hs e).1, false :: (chainRun stop hs e).2) ∧
    (chainRun stop [none, some g] e).2 = [false, true] ∧
    (chainRun stop [none, some g] e).1 = g e := by
  refine ⟨?_, ?_, ?_⟩ <;> simp [chainRun, he]

/-- C7 (witness): evaluated with an absent `h1`, the identity handler as
`h2` and a clear event, with `stopOnDefaultPrevented = true`. -/
theorem chain_skips_absent_handlers_witness :
    chainRun true (none :: [some idHandler]) clearEv =
      ((chainRun true [some idHandler] clearEv).1,
        false :: (chainRun true [some idHandler] clearEv).2) ∧
    (chainRun true [none, some idHandler] clearEv).2 = [false, true] ∧
    (chainRun true [none, some idHandler] clearEv).1 = idHandler clearEv :=
  chain_skips_absent_handlers true [some idHandler] idHandler clearEv
    (by decide)

/-!
## Enter-Submit Gate — `useCallbackOnEnter`

```js
const isMacOs = useMemo(() => navigator.userAgent.includes('Mac'), []);
const isComposing = useRef(false);
const onCompositionStart = useCallback(() => { isComposing.current = true; }, []);
const onCompositionEnd = useCallback(() => { isComposing.current = false; }, []);
const onKeyDown = useCallback(event => {
  if (event.key !== 'Enter') return;
  if (isComposing.current) return;
  if (!allowBasicEnter && !allowPlatformEnter) return;
  const basicEnter = allowBasicEnter && !event.metaKey && !event.ctrlKey && !event.shiftKey && !event.altKey;
  const platformEnter = allowPlatformEnter && (isMacOs ? event.metaKey : event.ctrlKey);
  const isValidEnterPress = basicEnter || platformEnter;
  if (isValidEnterPress) callback(event);
}, [allowBasicEnter, allowPlatformEnter, callback, isMacOs]);
```

The callback is abstracted as a transformer `DomEvent → DomEvent`; the gate
itself performs no event mutation, so `onKeyDownRun` returns the event as
the gate leaves it (the callback's result when the callback fires, the
unchanged event otherwise) together with the number of callback
invocations.
-/

/-- The gate's configuration: `allowBasicEnter`, `allowPlatformEnter`, and
the one-time Mac-platform classification `isMacOs`. -/
structure GateConfig where
  allowBasicEnter : Bool
  allowPlatformEnter : Bool
  isMacOs : Bool
  deriving DecidableEq, Repr

/-- Embedding of `onCompositionStart`: sets the composition flag. -/
def onCompositionStart (_isComposing : Bool) : Bool := true

/-- Embedding of `onCompositionEnd`: clears the composition flag. -/
def onCompositionEnd (_isComposing : Bool) : Bool := false

/-- Embedding of `onKeyDown`, with the callback abstracted: returns the event as left by
the gate together with the number of callback invocations. -/
def onKeyDownRun (cfg : GateConfig) (isComposing : Bool)
    (callback : DomEvent → DomEvent) (event : DomEvent) : DomEvent × Nat :=
  if event.key ≠ "Enter" then (event, 0)
  else if isComposing then (event, 0)
  else if !cfg.allowBasicEnter && !cfg.allowPlatformEnter then (event, 0)
  else
    let basicEnter := cfg.allowBasicEnter && !event.metaKey && !event.ctrlKey
      && !event.shiftKey && !event.altKey
    let platformEnter := cfg.allowPlatformEnter &&
      (if cfg.isMacOs then event.metaKey else event.ctrlKey)
    let isValidEnterPress := basicEnter || platformEnter
    if isValidEnterPress then (callback event, 1) else (event, 0)

/-- Number of callback invocations performed by `onKeyDown` for one keydown
event (independent of what the callback does). -/
def onKeyDownCount (cfg : GateConfig) (isComposing : Bool)
    (event : DomEvent) : Nat :=
  (onKeyDownRun cfg isComposing (fun e => e) event).2

/-- The three event kinds delivered to one gate instance. -/
inductive GateEvent where
  | compositionStart : GateEvent
  | compositionEnd : GateEvent
  | keyDown : DomEvent → GateEvent
  deriving DecidableEq, Repr

/-- One step of the gate: the new composition flag and the number of
callback invocations caused by the event. -/
def gateStep (cfg : GateConfig) (isComposing : Bool) :
    GateEvent → Bool × Nat
  | GateEvent.compositionStart => (onCompositionStart isComposing, 0)
  | GateEvent.compositionEnd => (onCompositionEnd isComposing, 0)
  | GateEvent.keyDown e => (isComposing, onKeyDownCount cfg isComposing e)

/-- Running the gate over a sequence of events from a given composition
flag: the final flag and the total number of callback invocations.  The
flag starts `false` at gate creation (`useRef(false)`). -/
def gateRun (cfg : GateConfig) (isComposing : Bool) :
    List GateEvent → Bool × Nat
  | [] => (isComposing, 0)
  | ev :: evs =>
    let s := gateStep cfg isComposing ev
    let r := gateRun cfg s.1 evs
    (r.1, s.2 + r.2)

def GateEvent.isCompositionStart : GateEvent → Bool
  | GateEvent.compositionStart => true
  | _ => false

def GateEvent.isCompositionEnd : GateEvent → Bool
  | GateEvent.compositionEnd => true
  | _ => false

/-- Spec-side characterisation of an active composition (for the refinement
claim C2, following the spec's words): the composition is active after a
trace exactly when some `compositionstart` has occurred with no
`compositionend` after it — i.e. scanning the trace backwards, a
`compositionstart` appears before any `compositionend`. -/
def specCompositionActive (t : List GateEvent) : Bool :=
  (t.reverse.takeWhile fun ev => ! ev.isCompositionEnd).any
    fun ev => ev.isCompositionStart

lemma gateRun_fst (cfg : GateConfig) :
    ∀ (t : List GateEvent) (c : Bool),
      (gateRun cfg c t).1 = t.foldl (fun b ev => (gateStep cfg b ev).1) c := by
  intro t
  induction t with
  | nil => intro c; rfl
  | cons ev evs ih => intro c; simp [gateRun, ih]

lemma foldl_state_eq_spec (cfg : GateConfig) (t : List GateEvent) :
    t.foldl (fun b ev => (gateStep cfg b ev).1) false =
      specCompositionActive t := by
  induction t using List.reverseRecOn with
  | nil => simp [specCompositionActive]
  | append_singleton t ev ih =>
    rw [List.foldl_append, List.foldl_cons, List.foldl_nil, ih]
    cases ev with
    | compositionStart =>
      simp [specCompositionActive, gateStep, onCompositionStart,
        GateEvent.isCompositionStart, GateEvent.isCompositionEnd]
    | compositionEnd =>
      simp [specCompositionActive, gateStep, onCompositionEnd,
        GateEvent.isCompositionEnd]
    | keyDown e =>
      simp [specCompositionActive, gateStep,
        GateEvent.isCompositionStart, GateEvent.isCompositionEnd]

lemma gateRun_append (cfg : GateConfig) :
    ∀ (t : List GateEvent) (ev : GateEvent) (c : Bool),
      gateRun cfg c (t ++ [ev]) =
        ((gateStep cfg (gateRun cfg c t).1 ev).1,
          (gateRun cfg c t).2 + (gateStep cfg (gateRun cfg c t).1 ev).2) := by
  intro t
  induction t with
  | nil => intro ev c; simp [gateRun]
  | cons hd tl ih => intro ev c; simp [gateRun, ih, Nat.add_assoc]

lemma onKeyDown_composing_blocked (cfg : GateConfig)
    (cb : DomEvent → DomEvent) (e : DomEvent) :
    (onKeyDownRun cfg true cb e).2 = 0 := by
  unfold onKeyDownRun
  by_cases hk : e.key = "Enter" <;> simp [hk]

/-- C2: the gate's composition flag after any event trace (starting from
gate creation, flag `false`) agrees with the spec-side notion of an active
composition — true exactly between a `compositionstart` and the next
`compositionend` — and, while the flag is true, a keydown (any key, any
modifiers, any configuration, any callback) invokes the callback zero
times; consequently appending a keydown to a trace with an active
composition adds no invocation. -/
theorem gate_composition_invariant (cfg : GateConfig) (t : List GateEvent)
    (cb : DomEvent → DomEvent) (e : DomEvent) :
    (gateRun cfg false t).1 = specCompositionActive t ∧
    (onKeyDownRun cfg true cb e).2 = 0 ∧
    (specCompositionActive t = true →
      (gateRun cfg false (t ++ [GateEvent.keyDown e])).2 =
        (gateRun cfg false t).2) := by
  have hstate : (gateRun cfg false t).1 = specCompositionActive t := by
    rw [gateRun_fst]; exact foldl_state_eq_spec cfg t
  refine ⟨hstate, onKeyDown_composing_blocked cfg cb e, ?_⟩
  intro hact
  rw [gateRun_append]
  simp [gateStep, hstate, hact, onKeyDownCount,
    onKeyDown_composing_blocked]

/-- C2 (witness): evaluated on the one-event trace `[compositionstart]`,
where the composition is active, with a plain keydown appended. -/
theorem gate_composition_invariant_witness :
    (gateRun ⟨true, true, false⟩ false [GateEvent.compositionStart]).1 =
      specCompositionActive [GateEvent.compositionStart] ∧
    (onKeyDownRun ⟨true, true, false⟩ true idHandler clearEv).2 = 0 ∧
    (gateRun ⟨true, true, false⟩ false
        ([GateEvent.compositionStart] ++ [GateEvent.keyDown clearEv])).2 =
      (gateRun ⟨true, true, false⟩ false [GateEvent.compositionStart]).2 := by
  have h := gate_composition_invariant ⟨true, true, false⟩
    [GateEvent.compositionStart] idHandler clearEv
  exact ⟨h.1, h.2.1, h.2.2 (by decide)⟩

/-- C3: a keydown whose `key` is not `"Enter"` never invokes the callback
and leaves the event untouched, for every configuration, composition state
and callback. -/
theorem gate_ignores_non_enter (cfg : GateConfig) (isComposing : Bool)
    (cb : DomEvent → DomEvent) (e : DomEvent) (hk : e.key ≠ "Enter") :
    onKeyDownRun cfg isComposing cb e = (e, 0) := by
  unfold onKeyDownRun
  simp [hk]

/-- C3 (witness): evaluated on a keydown with key `"a"`. -/
theorem gate_ignores_non_enter_witness :
    onKeyDownRun ⟨true, true, false⟩ false idHandler clearEv =
      (clearEv, 0) :=
  gate_ignores_non_enter ⟨true, true, false⟩ false idHandler clearEv
    (by decide)

/-- An Enter keydown with the given modifier flags (and `defaultPrevented`
clear). -/
def enterEv (metaKey ctrlKey shiftKey altKey : Bool) : DomEvent :=
  { key := "Enter", metaKey := metaKey, ctrlKey := ctrlKey,
    shiftKey := shiftKey, altKey := altKey, defaultPrevented := false }

/-- C4: modifier matrix for a non-composing gate.  With
`allowBasicEnter = true, allowPlatformEnter = false` (any platform): plain
Enter invokes the callback exactly once and Enter with Shift held (any
other modifiers) never does.  With `allowBasicEnter = false,
allowPlatformEnter = true`: on a Mac-like platform Enter+Meta invokes
exactly once and Enter+Ctrl does not; on a non-Mac platform Enter+Ctrl
invokes exactly once and Enter+Meta does not. -/
theorem gate_modifier_matrix (mac m c a : Bool) :
    onKeyDownCount ⟨true, false, mac⟩ false (enterEv false false false false) = 1 ∧
    onKeyDownCount ⟨true, false, mac⟩ false (enterEv m c true a) = 0 ∧
    onKeyDownCount ⟨false, true, true⟩ false (enterEv true false false false) = 1 ∧
    onKeyDownCount ⟨false, true, true⟩ false (enterEv false true false false) = 0 ∧
    onKeyDownCount ⟨false, true, false⟩ false (enterEv false true false false) = 1 ∧
    onKeyDownCount ⟨false, true, false⟩ false (enterEv true false false false) = 0 := by
  cases mac <;> cases m <;> cases c <;> cases a <;> decide

/-- A modifierless Enter keydown. -/
def plainEnter : DomEvent := enterEv false false false false

/-- The IME regression trace: composition starts, Enter is pressed during
composition, composition ends, Enter is pressed again. -/
def imeTrace : List GateEvent :=
  [GateEvent.compositionStart, GateEvent.keyDown plainEnter,
   GateEvent.compositionEnd, GateEvent.keyDown plainEnter]

/-- C5: with `allowBasicEnter = true` (any `allowPlatformEnter`, any
platform), the trace `[compositionstart, Enter, compositionend, Enter]`
produces exactly one callback invocation in total; the Enter during
composition contributes zero invocations and the Enter after the
composition contributes exactly one. -/
theorem gate_ime_sequence (pe mac : Bool) :
    gateRun ⟨true, pe, mac⟩ false imeTrace = (false, 1) ∧
    onKeyDownCount ⟨true, pe, mac⟩ true plainEnter = 0 ∧
    onKeyDownCount ⟨true, pe, mac⟩ false plainEnter = 1 := by
  cases pe <;> cases mac <;> decide

lemma onKeyDownRun_characterisation (cfg : GateConfig) (isComposing : Bool)
    (cb : DomEvent → DomEvent) (e : DomEvent) :
    onKeyDownRun cfg isComposing cb e =
      (if onKeyDownCount cfg isComposing e = 1 then cb e else e,
        onKeyDownCount cfg isComposing e) := by
  obtain ⟨ab, ap, mac⟩ := cfg
  obtain ⟨k, m, c, s, a, d⟩ := e
  unfold onKeyDownCount onKeyDownRun
  by_cases hk : k = "Enter" <;>
    cases isComposing <;> cases ab <;> cases ap <;> cases mac <;>
    cases m <;> cases c <;> cases s <;> cases a <;>
    simp [hk]

/-- C8 (frame contract of the gate): `onKeyDown` returns the unchanged
event together with zero invocations, or the callback's result together
with exactly one invocation — never more; with an identity callback (i.e.
looking at the gate's own effect) the event, and in particular its
`defaultPrevented` flag, is returned untouched; the composition handlers
only write the composition flag.  All the modelled functions are total, so
no event makes the gate raise an error. -/
theorem gate_frame_contract (cfg : GateConfig) (isComposing : Bool)
    (cb : DomEvent → DomEvent) (e : DomEvent) :
    onKeyDownRun cfg isComposing cb e =
      (if onKeyDownCount cfg isComposing e = 1 then cb e else e,
        onKeyDownCount cfg isComposing e) ∧
    onKeyDownCount cfg isComposing e ≤ 1 ∧
    (onKeyDownRun cfg isComposing (fun x => x) e).1 = e ∧
    (onKeyDownRun cfg isComposing (fun x => x) e).1.defaultPrevented =
      e.defaultPrevented ∧
    onCompositionStart isComposing = true ∧
    onCompositionEnd isComposing = false := by
  have hchar := onKeyDownRun_characterisation cfg isComposing cb e
  have hid := onKeyDownRun_characterisation cfg isComposing (fun x => x) e
  have hle : onKeyDownCount cfg isComposing e ≤ 1 := by
    obtain ⟨ab, ap, mac⟩ := cfg
    obtain ⟨k, m, c, s, a, d⟩ := e
    unfold onKeyDownCount onKeyDownRun
    by_cases hk : k = "Enter" <;>
      cases isComposing <;> cases ab <;> cases ap <;> cases mac <;>
      cases m <;> cases c <;> cases s <;> cases a <;>
      simp [hk]
  have hfst : (onKeyDownRun cfg isComposing (fun x => x) e).1 = e := by
    rw [hid]
    split <;> rfl
  exact ⟨hchar, hle, hfst, by rw [hfst], rfl, rfl⟩

/-!
## Form submit callbacks — `onFormSubmit` (Input) / `handleSubmitForm` (TextArea)

```js
const onFormSubmit = useCallback(e => {
  var _formContext$formRef;
  if (!((_formContext$formRef = formContext.formRef) !== null &&
        _formContext$formRef !== void 0 && _formContext$formRef.current)) return;
  e.preventDefault();
  formContext.formRef.current.requestSubmit();
}, [formContext.formRef]);
```

(the TextArea's `handleSubmitForm` has the identical body).  The
form-context reference is `Option (Option HtmlForm)`: the outer `Option`
is `formContext.formRef` being `null`/`undefined`, the inner one the ref's
`current` being `null`.  The result is the event after the callback and
the list of forms on which `requestSubmit` was called.
-/

/-- An owning form element (identity only). -/
structure HtmlForm where
  formId : Nat
  deriving DecidableEq, Repr

/-- The `Input` component's submit callback. -/
def onFormSubmit (formRef : Option (Option HtmlForm)) (e : DomEvent) :
    DomEvent × List HtmlForm :=
  match formRef with
  | some (some f) => (e.preventDefault, [f])
  | _ => (e, [])

/-- The `TextArea` component's submit callback (identical body). -/
def handleSubmitForm (formRef : Option (Option HtmlForm)) (e : DomEvent) :
    DomEvent × List HtmlForm :=
  match formRef with
  | some (some f) => (e.preventDefault, [f])
  | _ => (e, [])

/-- C9: the submit callback of `Input` (and the identical one of
`TextArea`) does nothing — no `preventDefault`, no submission — when the
form-context reference is absent or its `current` is null, and when a form
is attached it calls `preventDefault` on the event and requests submission
of exactly that form exactly once. -/
theorem form_submit_requires_attached_ref
    (fr : Option (Option HtmlForm)) (f : HtmlForm) (e : DomEvent) :
    onFormSubmit none e = (e, []) ∧
    onFormSubmit (some none) e = (e, []) ∧
    onFormSubmit (some (some f)) e = (e.preventDefault, [f]) ∧
    handleSubmitForm fr e = onFormSubmit fr e := by
  refine ⟨rfl, rfl, rfl, ?_⟩
  cases fr with
  | none => rfl
  | some inner => cases inner <;> rfl

/-!
## `useCallbackOnceUntilReset`

```js
const canTriggerRef = useRef(true);
const reset = useCallback(() => { canTriggerRef.current = true; }, []);
const callbackOnceUntilReset = useCallback(() => {
  if (canTriggerRef.current) {
    callback();
    canTriggerRef.current = false;
  }
}, [callback]);
```
-/

/-- The two operations available on a `useCallbackOnceUntilReset`
instance. -/
inductive OnceOp where
  | call : OnceOp
  | reset : OnceOp
  deriving DecidableEq, Repr

/-- The `canTriggerRef` flag at creation (`useRef(true)`). -/
def initialCanTrigger : Bool := true

/-- One operation: the new `canTrigger` flag and the number of wrapped
callback invocations. -/
def onceStep (canTrigger : Bool) : OnceOp → Bool × Nat
  | OnceOp.call => if canTrigger then (false, 1) else (canTrigger, 0)
  | OnceOp.reset => (true, 0)

/-- Running a sequence of operations: final flag and total number of
wrapped-callback invocations. -/
def onceRun (canTrigger : Bool) : List OnceOp → Bool × Nat
  | [] => (canTrigger, 0)
  | op :: ops =>
    let s := onceStep canTrigger op
    let r := onceRun s.1 ops
    (r.1, s.2 + r.2)

lemma onceRun_false_calls (ops : List OnceOp)
    (h : ∀ op ∈ ops, op = OnceOp.call) :
    onceRun false ops = (false, 0) := by
  induction ops with
  | nil => rfl
  | cons op ops ih =>
    have hop : op = OnceOp.call := h op (List.mem_cons_self op ops)
    subst hop
    have hrest := ih fun op hmem => h op (List.mem_cons_of_mem _ hmem)
    simp [onceRun, onceStep, hrest]

/-- C10: between consecutive resets the wrapped callback runs at most once:
over any reset-free run of calls the invocation total is at most 1; from a
fresh or just-reset flag, a nonempty run of calls invokes the callback
exactly once (the first call) and every further call adds zero; once the
flag is consumed, calls invoke nothing; the flag at creation allows the
first call, and a reset restores it. -/
theorem once_until_reset_at_most_once (c : Bool) (ops : List OnceOp)
    (h : ∀ op ∈ ops, op = OnceOp.call) :
    (onceRun c ops).2 ≤ 1 ∧
    (onceRun true ops).2 = (if ops.isEmpty then 0 else 1) ∧
    (onceRun false ops).2 = 0 ∧
    (onceRun c (OnceOp.reset :: ops)).2 = (if ops.isEmpty then 0 else 1) ∧
    initialCanTrigger = true := by
  have hfalse : onceRun false ops = (false, 0) := onceRun_false_calls ops h
  have htrue : (onceRun true ops).2 = (if ops.isEmpty then 0 else 1) := by
    cases ops with
    | nil => rfl
    | cons op ops =>
      have hop : op = OnceOp.call := h op (List.mem_cons_self op ops)
      subst hop
      have hrest : onceRun false ops = (false, 0) :=
        onceRun_false_calls ops fun op hmem => h op (List.mem_cons_of_mem _ hmem)
      simp [onceRun, onceStep, hrest]
  refine ⟨?_, htrue, by rw [hfalse], ?_, rfl⟩
  · cases c
    · rw [hfalse]; exact Nat.zero_le 1
    · rw [htrue]; split <;> simp
  · simp [onceRun, onceStep, htrue]

/-- C10 (witness): two consecutive calls from the initial state invoke the
callback exactly once in total. -/
theorem once_until_reset_at_most_once_witness :
    (onceRun true [OnceOp.call, OnceOp.call]).2 ≤ 1 ∧
    (onceRun true [OnceOp.call, OnceOp.call]).2 =
      (if ([OnceOp.call, OnceOp.call] : List OnceOp).isEmpty then 0 else 1) ∧
    (onceRun false [OnceOp.call, OnceOp.call]).2 = 0 ∧
    (onceRun true (OnceOp.reset :: [OnceOp.call, OnceOp.call])).2 =
      (if ([OnceOp.call, OnceOp.call] : List OnceOp).isEmpty then 0 else 1) ∧
    initialCanTrigger = true :=
  once_until_reset_at_most_once true [OnceOp.call, OnceOp.call] (by decide)
